import Mathlib

/-!
Shallow embedding of the `f8` minifloat library (src/f8.rs).

An `F8` is a single byte: 1 sign bit, 3 exponent bits (biased by `BIAS`),
4 significand bits.  Machine integers are modelled as `Nat`, with an
explicit `% 256` exactly where the Rust `u8` operations wrap or truncate.
Loops are translated to structurally recursive functions so that every
definition evaluates inside the kernel.
-/

set_option maxRecDepth 40000
set_option maxHeartbeats 1000000

/-- Exponent bias of the format (`BIAS` in f8.rs). -/
def BIAS : Nat := 2

/-- Sign-bit mask `0b1000_0000`. -/
def SIGN_MASK : Nat := 0b10000000

/-- Exponent-field mask `0b0111_0000`. -/
def EXP_MASK : Nat := 0b01110000

/-- Significand-field mask `0b0000_1111`. -/
def SIGNIF_MASK : Nat := 0b00001111

/-- Truncate a natural number to a byte, as every Rust `u8` store does. -/
def byte (n : Nat) : Fin 256 := ⟨n % 256, Nat.mod_lt n (by decide)⟩

/-- The packed 8-bit float: `pub struct F8(u8)`. -/
abbrev F8 := Fin 256

/-- Body of the `while signif > 0b1111` loop of `normalize`: each pass
either exits, or returns the early-saturation pair when `exp == 0`, or
decrements `exp` and halves `signif` (`signif >>= 1`).  Recursion is
structural on `exp`, which the loop decrements every iteration. -/
def F8.normalizeLoop (exp signif : Nat) : Nat × Nat :=
  if signif > 0b1111 then
    match exp with
    | 0 => (0b1111, 1)
    | e + 1 => F8.normalizeLoop e (signif / 2)
  else (exp, signif)

/-- `normalize` from f8.rs: saturate immediately when `exp >= 0b111`,
otherwise run the shrinking loop. -/
def F8.normalize (exp signif : Nat) : Nat × Nat :=
  if exp ≥ 0b111 then (0b1111, 0)
  else F8.normalizeLoop exp signif

/-- `F8::new`: `sign << 7 | ((exp << 4) & EXP_MASK) | (signif & SIGNIF_MASK)`.
The final `byte` applies the `u8` truncation of the Rust shifts. -/
def F8.new (sign exp signif : Nat) : F8 :=
  byte ((sign <<< 7) ||| ((exp <<< 4) &&& EXP_MASK) ||| (signif &&& SIGNIF_MASK))

/-- `F8::is_sign_positive`: `self.0 & SIGN_MASK == 0`. -/
def F8.is_sign_positive (a : F8) : Bool := a.val &&& SIGN_MASK == 0

/-- `F8::is_sign_negative`: `self.0 & SIGN_MASK != 0`. -/
def F8.is_sign_negative (a : F8) : Bool := a.val &&& SIGN_MASK != 0

/-- `F8::exponent`: `(self.0 & EXP_MASK) >> 4`. -/
def F8.exponent (a : F8) : Nat := (a.val &&& EXP_MASK) >>> 4

/-- `F8::significand`: `self.0 & SIGNIF_MASK`. -/
def F8.significand (a : F8) : Nat := a.val &&& SIGNIF_MASK

/-- `F8::signum`: 0 when the significand field is 0, otherwise ±1 by the
sign bit. -/
def F8.signum (a : F8) : Int :=
  if F8.significand a = 0 then 0
  else if F8.is_sign_positive a then 1 else -1

/-- `Zero::zero` for `F8`: the all-zero byte. -/
def F8.zero : F8 := byte 0

/-- `One::one` for `F8`: `F8::new(0, BIAS, 1)`. -/
def F8.one : F8 := F8.new 0 BIAS 1

/-- `Neg::neg`: flip the sign bit, `F8(self.0 ^ SIGN_MASK)`. -/
def F8.neg (a : F8) : F8 := byte (a.val ^^^ SIGN_MASK)

/-- `k` passes of the alignment step `m0 <<= 1` on a `u8` (high bits are
silently discarded, hence the per-step `% 256`).  `Add::add` runs this
loop `e1 - e0` times on the operand with the smaller exponent. -/
def alignStep (m : Nat) : Nat → Nat
  | 0 => m
  | k + 1 => alignStep ((m <<< 1) % 256) k

/-- The exponent-alignment phase of `Add::add` for one operand: if this
operand's exponent `e0` is below the other's `e1`, its significand is
doubled and its exponent incremented until the exponents meet (the
`Ordering::Less` / `Ordering::Greater` loops); otherwise it is untouched. -/
def F8.aligned (e0 m0 e1 : Nat) : Nat × Nat :=
  if e0 < e1 then (alignStep m0 (e1 - e0), e0 + (e1 - e0)) else (m0, e0)

/-- The four sign-combination arms of `Add::add`, applied to the aligned
significands `m0`, `m1` at common exponent `e`.  The same-sign arms carry
the guard of checked `u8` addition (`none` would be an overflow panic past
255); the opposite-sign subtractions are guarded by the `cmp` match
exactly as in the source. -/
def F8.combine : Bool → Bool → Nat → Nat → Nat → Option F8
  | true, true, e, m0, m1 =>
    if m0 + m1 ≤ 255 then
      some (F8.new 0 (F8.normalize e (m0 + m1)).1 (F8.normalize e (m0 + m1)).2)
    else none
  | false, false, e, m0, m1 =>
    if m0 + m1 ≤ 255 then
      some (F8.new 1 (F8.normalize e (m0 + m1)).1 (F8.normalize e (m0 + m1)).2)
    else none
  | true, false, e, m0, m1 =>
    if m0 = m1 then some F8.zero
    else if m0 > m1 then
      some (F8.new 0 (F8.normalize e (m0 - m1)).1 (F8.normalize e (m0 - m1)).2)
    else
      some (F8.new 1 (F8.normalize e (m1 - m0)).1 (F8.normalize e (m1 - m0)).2)
  | false, true, e, m0, m1 =>
    if m1 = m0 then some F8.zero
    else if m1 > m0 then
      some (F8.new 0 (F8.normalize e (m1 - m0)).1 (F8.normalize e (m1 - m0)).2)
    else
      some (F8.new 1 (F8.normalize e (m0 - m1)).1 (F8.normalize e (m0 - m1)).2)

/-- `Add::add` from f8.rs with the points where checked `u8` arithmetic
could panic made explicit as `none`: the `assert_eq!(e0, e1)` after
alignment (the outer guard) and same-sign significand overflow (inside
`combine`). -/
def F8.addOpt (a b : F8) : Option F8 :=
  if (F8.aligned (F8.exponent a) (F8.significand a) (F8.exponent b)).2
      = (F8.aligned (F8.exponent b) (F8.significand b) (F8.exponent a)).2 then
    F8.combine (F8.is_sign_positive a) (F8.is_sign_positive b)
      (F8.aligned (F8.exponent a) (F8.significand a) (F8.exponent b)).2
      (F8.aligned (F8.exponent a) (F8.significand a) (F8.exponent b)).1
      (F8.aligned (F8.exponent b) (F8.significand b) (F8.exponent a)).1
  else none

/-- Total addition: `addOpt` never actually returns `none` (proved below),
so projecting with a default loses nothing. -/
def F8.add (a b : F8) : F8 := (F8.addOpt a b).getD F8.zero

/-- `Sub::sub`: `self + (-rhs)`. -/
def F8.sub (a b : F8) : F8 := F8.add a (F8.neg b)

/-- `Mul::mul` under release (wrapping) `u8` semantics: the subtraction
`self.exponent() + rhs.exponent() - BIAS` wraps modulo 256.  (The
exponent sum is at most 14 and the significand product at most 225, so
no other step can wrap.) -/
def F8.mul (a b : F8) : F8 :=
  F8.new (if F8.is_sign_negative a != F8.is_sign_negative b then 1 else 0)
    (F8.normalize ((F8.exponent a + F8.exponent b + 256 - BIAS) % 256)
      (F8.significand a * F8.significand b)).1
    (F8.normalize ((F8.exponent a + F8.exponent b + 256 - BIAS) % 256)
      (F8.significand a * F8.significand b)).2

/-- `Mul::mul` under checked (debug) `u8` semantics: `none` marks the
panic of `self.exponent() + rhs.exponent() - BIAS` when the exponent sum
is below `BIAS`. -/
def F8.mulChecked (a b : F8) : Option F8 :=
  if F8.exponent a + F8.exponent b < BIAS then none
  else
    some (F8.new (if F8.is_sign_negative a != F8.is_sign_negative b then 1 else 0)
      (F8.normalize (F8.exponent a + F8.exponent b - BIAS)
        (F8.significand a * F8.significand b)).1
      (F8.normalize (F8.exponent a + F8.exponent b - BIAS)
        (F8.significand a * F8.significand b)).2)

/-- The numeric value denoted by an `F8`, scaled by `2 ^ BIAS = 4` so it
stays an integer: `±(significand · 2^exponent)`.  The true denoted value
is `value4 / 4`. -/
def F8.value4 (a : F8) : Int :=
  (if F8.is_sign_negative a then -1 else 1) * (F8.significand a : Int) * 2 ^ F8.exponent a

/-!  Conversion from `f32`.  The external float is represented by its
IEEE-754 bit pattern (a `Nat` below `2^32`); `integer_decode` and
`is_sign_negative` are the pure bit-level functions from `num_traits`
and `std` that `F8::try_from` calls on it. -/

/-- `num_traits` `Float::integer_decode` for `f32`, over the bit pattern:
mantissa (with the implicit bit for normal numbers, doubled fraction for
subnormals) and unbiased exponent `field - (127 + 23)`. -/
def f32_integer_decode (bits : Nat) : Nat × Int :=
  ((if (bits >>> 23) &&& 0xff = 0 then (bits &&& 0x7fffff) <<< 1
    else (bits &&& 0x7fffff) ||| 0x800000),
   (((bits >>> 23) &&& 0xff : Nat) : Int) - 150)

/-- `f32::is_sign_negative` over the bit pattern. -/
def f32_is_sign_negative (bits : Nat) : Bool := bits >>> 31 == 1

/-- The `while signif & 1 != 1 { signif >>= 1; exp += 1 }` loop of
`F8::try_from`, with explicit fuel: `none` means the loop has not
terminated within `fuel` iterations.  For any nonzero `f32` mantissa
(below `2^24`) 24 iterations always suffice; for mantissa 0 the loop
never exits (proved below). -/
def oddReduce (fuel signif : Nat) (exp : Int) : Option (Nat × Int) :=
  match fuel with
  | 0 => none
  | f + 1 =>
    if signif % 2 ≠ 1 then oddReduce f (signif / 2) (exp + 1)
    else some (signif, exp)

/-- `F8::try_from` over the input's bit pattern.  Outer `none` = the
reduction loop diverged (fuel exhausted); `some none` = the function
returned `None` (biased exponent negative); `some (some v)` = `Some(v)`.
The `% 256` are the Rust `as u8` casts. -/
def tryFromFuel (fuel bits : Nat) : Option (Option F8) :=
  match oddReduce fuel (f32_integer_decode bits).1 (f32_integer_decode bits).2 with
  | none => none
  | some (signif, exp) =>
    if exp + (BIAS : Int) < 0 then some none
    else
      some (some (F8.new (if f32_is_sign_negative bits then 1 else 0)
        (F8.normalize ((exp + (BIAS : Int)).toNat % 256) (signif % 256)).1
        (F8.normalize ((exp + (BIAS : Int)).toNat % 256) (signif % 256)).2))

/-- Bit pattern of `F8::v(self)` = `±2^(exponent-BIAS) · significand` as
an `f32`.  Every such magnitude (significand at most 15, exponent offset
in [-2, 5]) is exactly representable as a normal `f32` (or ±0.0 when the
significand is 0), and `2f32.powi` and the product compute it exactly, so
the float computation is modelled by direct exact encoding of the value. -/
def F8.vBits (a : F8) : Nat :=
  if F8.significand a = 0 then (if F8.is_sign_negative a then 1 else 0) <<< 31
  else
    ((if F8.is_sign_negative a then 1 else 0) <<< 31) |||
    ((F8.exponent a +
      (if F8.significand a ≥ 8 then 3 else if F8.significand a ≥ 4 then 2
       else if F8.significand a ≥ 2 then 1 else 0) + 125) <<< 23) |||
    ((F8.significand a <<<
      (23 - (if F8.significand a ≥ 8 then 3 else if F8.significand a ≥ 4 then 2
             else if F8.significand a ≥ 2 then 1 else 0))) &&& 0x7fffff)

example : F8.normalize 2 17 = (1, 8) := by decide
example : F8.normalize 0 16 = (15, 1) := by decide
example : F8.add F8.one F8.one = F8.new 0 2 2 := by decide
example : F8.mulChecked F8.one F8.one = some F8.one := by decide
example : F8.sub F8.one F8.one = F8.zero := by decide
example : F8.vBits (byte 0x22) = 0x40000000 := by decide
example : tryFromFuel 64 0x40000000 = some (some (byte 0x31)) := by decide

/-! ### Helper lemmas -/

/-- The significand field of any byte fits in 4 bits. -/
theorem F8.significand_le (a : F8) : F8.significand a ≤ 15 :=
  Nat.and_le_right

/-- The exponent field of any byte fits in 3 bits. -/
theorem F8.exponent_le (a : F8) : F8.exponent a ≤ 7 := by
  unfold F8.exponent EXP_MASK
  have h : a.val &&& 112 ≤ 112 := Nat.and_le_right
  rw [Nat.shiftRight_eq_div_pow]
  omega

/-- The alignment loop computes left shift modulo 256. -/
theorem alignStep_eq (k : Nat) : ∀ m : Nat, m < 256 → alignStep m k = m * 2 ^ k % 256 := by
  induction k with
  | zero => intro m hm; simpa [alignStep] using (Nat.mod_eq_of_lt hm).symm
  | succ k ih =>
    intro m hm
    show alignStep ((m <<< 1) % 256) k = _
    rw [ih _ (Nat.mod_lt _ (by norm_num)), Nat.shiftLeft_eq, pow_one, Nat.mod_mul_mod]
    congr 1
    ring

/-- A 4-bit significand pushed through the alignment loop never exceeds
240 (so it can absorb the other operand's raw significand without the
sum leaving the byte range). -/
theorem alignStep_le_240 (k m : Nat) (hm : m ≤ 15) : alignStep m k ≤ 240 := by
  rw [alignStep_eq k m (by omega)]
  rcases Nat.lt_or_ge k 5 with hk | hk
  · have h2 : 2 ^ k ≤ 16 := by interval_cases k <;> norm_num
    have h3 : m * 2 ^ k ≤ 240 := le_trans (Nat.mul_le_mul hm h2) (by norm_num)
    exact le_trans (Nat.mod_le _ _) h3
  · obtain ⟨j, rfl⟩ : ∃ j, k = 5 + j := ⟨k - 5, by omega⟩
    have hdvd : (32 : Nat) ∣ m * 2 ^ (5 + j) := ⟨m * 2 ^ j, by rw [pow_add]; ring⟩
    have hdvd2 : (32 : Nat) ∣ m * 2 ^ (5 + j) % 256 :=
      (Nat.dvd_mod_iff (by norm_num)).mpr hdvd
    obtain ⟨t, ht⟩ := hdvd2
    have hlt : m * 2 ^ (5 + j) % 256 < 256 := Nat.mod_lt _ (by norm_num)
    omega

/-- After alignment the exponent is the larger of the two exponents. -/
theorem F8.aligned_snd (e0 m0 e1 : Nat) : (F8.aligned e0 m0 e1).2 = max e0 e1 := by
  unfold F8.aligned
  split <;> simp <;> omega

/-- The aligned significand never exceeds 240 when the input fits 4 bits. -/
theorem F8.aligned_fst_le (e0 m0 e1 : Nat) (hm : m0 ≤ 15) :
    (F8.aligned e0 m0 e1).1 ≤ 240 := by
  unfold F8.aligned
  split
  · exact alignStep_le_240 _ _ hm
  · simpa using le_trans hm (by norm_num)

/-- The operand with the larger (or equal) exponent keeps its significand. -/
theorem F8.aligned_fst_of_not_lt (e0 m0 e1 : Nat) (h : ¬ e0 < e1) :
    (F8.aligned e0 m0 e1).1 = m0 := by
  unfold F8.aligned
  rw [if_neg h]

/-- The four sign arms are symmetric under swapping the two operands. -/
theorem F8.combine_comm (sa sb : Bool) (e m0 m1 : Nat) :
    F8.combine sa sb e m0 m1 = F8.combine sb sa e m1 m0 := by
  rcases sa <;> rcases sb <;> simp [F8.combine, Nat.add_comm]

/-- No sign arm fails when the aligned significands sum to at most 255. -/
theorem F8.combine_isSome (sa sb : Bool) (e m0 m1 : Nat) (h : m0 + m1 ≤ 255) :
    (F8.combine sa sb e m0 m1).isSome = true := by
  rcases sa <;> rcases sb <;> simp only [F8.combine] <;> split_ifs <;>
    first | rfl | (exfalso; omega)

/-- The two aligned exponents of `Add::add` always agree: the
`assert_eq!(e0, e1)` can never fire. -/
theorem F8.aligned_exponents_eq (a b : F8) :
    (F8.aligned (F8.exponent a) (F8.significand a) (F8.exponent b)).2
      = (F8.aligned (F8.exponent b) (F8.significand b) (F8.exponent a)).2 := by
  rw [F8.aligned_snd, F8.aligned_snd]
  exact Nat.max_comm _ _

/-- Addition never hits a failure point: both panics modelled in `addOpt`
are unreachable. -/
theorem F8.addOpt_isSome (a b : F8) : (F8.addOpt a b).isSome = true := by
  unfold F8.addOpt
  rw [if_pos (F8.aligned_exponents_eq a b)]
  apply F8.combine_isSome
  rcases Nat.lt_or_ge (F8.exponent a) (F8.exponent b) with h | h
  · have h1 := F8.aligned_fst_le (F8.exponent a) (F8.significand a) (F8.exponent b)
      (F8.significand_le a)
    have h2 := F8.aligned_fst_of_not_lt (F8.exponent b) (F8.significand b)
      (F8.exponent a) (by omega)
    have h3 := F8.significand_le b
    omega
  · have h1 := F8.aligned_fst_of_not_lt (F8.exponent a) (F8.significand a)
      (F8.exponent b) (by omega)
    have h2 := F8.aligned_fst_le (F8.exponent b) (F8.significand b) (F8.exponent a)
      (F8.significand_le b)
    have h3 := F8.significand_le a
    omega

/-- `addOpt` is symmetric in its operands. -/
theorem F8.addOpt_comm (a b : F8) : F8.addOpt a b = F8.addOpt b a := by
  unfold F8.addOpt
  have h := F8.aligned_exponents_eq a b
  rw [if_pos h, if_pos h.symm, F8.combine_comm, h]

/-! ### Claim theorems -/

/-- C1 counterexample: multiplication is not total as claimed.  At
`a = b = 0` (both exponent fields 0, so their sum is below `BIAS`), the
checked `u8` subtraction `exponent sum - BIAS` in `Mul::mul` fails. -/
theorem mul_underflow_cex :
    F8.mulChecked F8.zero F8.zero = none ∧
    F8.exponent F8.zero + F8.exponent F8.zero < BIAS := by decide

/-- C1 amended: `multiply` returns a value exactly when the sum of the
two biased exponent fields is at least `BIAS`; when the sum is smaller,
the `u8` subtraction underflows (debug panic), and under release
(wrapping) semantics the wrapped exponent makes the result saturate to
the infinity sentinel (exponent field 7, significand 0). -/
theorem mul_total_iff_exponent_sum :
    (∀ a b : F8, (F8.mulChecked a b).isSome = true ↔
      BIAS ≤ F8.exponent a + F8.exponent b) ∧
    (∀ a b : F8, F8.exponent a + F8.exponent b < BIAS →
      F8.exponent (F8.mul a b) = 7 ∧ F8.significand (F8.mul a b) = 0) := by
  constructor
  · intro a b
    unfold F8.mulChecked
    split
    · rename_i h
      unfold BIAS at h ⊢
      simp only [Option.isSome_none, Bool.false_eq_true, false_iff]
      omega
    · rename_i h
      unfold BIAS at h ⊢
      simp only [Option.isSome_some, true_iff]
      omega
  · intro a b h
    unfold BIAS at h
    have hmod : (F8.exponent a + F8.exponent b + 256 - BIAS) % 256
        = F8.exponent a + F8.exponent b + 254 := by
      unfold BIAS
      omega
    have hsat : F8.normalize ((F8.exponent a + F8.exponent b + 256 - BIAS) % 256)
        (F8.significand a * F8.significand b) = (15, 0) := by
      rw [hmod]
      unfold F8.normalize
      rw [if_pos (by omega)]
    unfold F8.mul
    rw [hsat]
    rcases hs : (F8.is_sign_negative a != F8.is_sign_negative b) <;> simp only [hs] <;> decide

/-- C1 witness: instantiating the amended claim at `a = b = 0`
(exponent-field sum 0 < BIAS): the release-mode product saturates to the
infinity sentinel. -/
theorem mul_total_iff_exponent_sum_witness :
    F8.exponent (F8.mul F8.zero F8.zero) = 7 ∧
    F8.significand (F8.mul F8.zero F8.zero) = 0 :=
  mul_total_iff_exponent_sum.2 F8.zero F8.zero (by decide)

/-- C2: the odd-significand reduction loop of `F8::try_from` never
terminates when the decoded significand is 0 — for any iteration bound
the loop is still running — and consequently `try_from` diverges on the
inputs 0.0 (bits 0) and -0.0 (bits `2^31`), whose decoded significand is
0, instead of returning a value or absent. -/
theorem tryFrom_diverges_on_zero :
    (∀ (fuel : Nat) (exp : Int), oddReduce fuel 0 exp = none) ∧
    (∀ fuel : Nat, tryFromFuel fuel 0 = none) ∧
    (∀ fuel : Nat, tryFromFuel fuel (2 ^ 31) = none) := by
  have h : ∀ (fuel : Nat) (exp : Int), oddReduce fuel 0 exp = none := by
    intro fuel
    induction fuel with
    | zero => intro e; rfl
    | succ f ih =>
      intro e
      simp only [oddReduce]
      rw [if_pos (by decide)]
      simpa using ih (e + 1)
  refine ⟨h, ?_, ?_⟩ <;> intro fuel <;> unfold tryFromFuel
  · rw [show (f32_integer_decode 0).1 = 0 from by decide, h]
  · rw [show (f32_integer_decode (2 ^ 31)).1 = 0 from by decide, h]

/-- C3 counterexample: at significand 16 > 15, `normalize(0, 16)` returns
`(15, 1)` — significand component 1 — not the infinity sentinel's pair
with significand 0 that the claim states. -/
theorem normalize_underflow_cex :
    15 < 16 ∧ F8.normalize 0 16 ≠ (15, 0) := by decide

/-- C3 amended: for every significand `s > 15`, `normalize(0, s)` returns
the saturated pair `(0b1111, 1)`: exponent at its all-ones value (which
packs to the maximal 3-bit field 7) but significand 1, one ulp above the
infinity sentinel encoding (exponent field 7, significand 0). -/
theorem normalize_underflow_amended :
    ∀ s : Nat, 15 < s → F8.normalize 0 s = (15, 1) := by
  intro s h
  unfold F8.normalize
  rw [if_neg (by omega)]
  unfold F8.normalizeLoop
  rw [if_pos (by omega)]

/-- C3 witness: the amended claim at `s = 16`. -/
theorem normalize_underflow_amended_witness : F8.normalize 0 16 = (15, 1) :=
  normalize_underflow_amended 16 (by decide)

/-- C4 counterexample: the value `F8(0x22)` (exponent field 2,
significand 2, denoting 2.0) does not round-trip bit-identically:
`try_from(v(F8(0x22)))` yields `F8(0x31)` (the canonical odd-significand
form of 2.0), not `F8(0x22)`. -/
theorem roundtrip_cex :
    tryFromFuel 64 (F8.vBits (byte 0x22)) ≠ some (some (byte 0x22)) := by decide

/-- C4 amended: exactly the values whose significand field is odd and
whose exponent field is below 7 survive the `v` / `try_from` round trip
bit-identically.  (Even nonzero significands re-canonicalize to a
different bit pattern, zero significands make `try_from` diverge, and
exponent field 7 saturates to the infinity sentinel.) -/
theorem roundtrip_odd_significand :
    ∀ v : F8, F8.significand v % 2 = 1 → F8.exponent v < 7 →
      tryFromFuel 64 (F8.vBits v) = some (some v) := by decide

/-- C4 witness: the amended claim at `v = F8(0x11)` (0.5). -/
theorem roundtrip_odd_significand_witness :
    tryFromFuel 64 (F8.vBits (byte 0x11)) = some (some (byte 0x11)) :=
  roundtrip_odd_significand (byte 0x11) (by decide) (by decide)

/-- C5: addition is total with no failure path — for every pair of
operands, the alignment phase, the internal exponent-equality assertion
and the aligned-significand arithmetic all succeed, and `add` returns the
value `addOpt` computed. -/
theorem add_total_no_failure :
    ∀ a b : F8, F8.addOpt a b = some (F8.add a b) := by
  intro a b
  obtain ⟨x, hx⟩ := Option.isSome_iff_exists.mp (F8.addOpt_isSome a b)
  unfold F8.add
  rw [hx]
  rfl

/-- C6: every arithmetic operation (add, subtract, multiply, negate)
yields a value whose significand field lies in [0, 15] and whose
exponent field lies in the 3-bit range [0, 7], for all operands. -/
theorem arith_fields_in_range :
    ∀ a b : F8,
      (F8.significand (F8.add a b) ≤ 15 ∧ F8.exponent (F8.add a b) ≤ 7) ∧
      (F8.significand (F8.sub a b) ≤ 15 ∧ F8.exponent (F8.sub a b) ≤ 7) ∧
      (F8.significand (F8.mul a b) ≤ 15 ∧ F8.exponent (F8.mul a b) ≤ 7) ∧
      (F8.significand (F8.neg a) ≤ 15 ∧ F8.exponent (F8.neg a) ≤ 7) :=
  fun _ _ =>
    ⟨⟨F8.significand_le _, F8.exponent_le _⟩,
     ⟨F8.significand_le _, F8.exponent_le _⟩,
     ⟨F8.significand_le _, F8.exponent_le _⟩,
     ⟨F8.significand_le _, F8.exponent_le _⟩⟩

/-- C7: addition is commutative — `add(a, b)` and `add(b, a)` are
bit-identical for all operands. -/
theorem add_commutative : ∀ a b : F8, F8.add a b = F8.add b a := by
  intro a b
  unfold F8.add
  rw [F8.addOpt_comm]

/-- C8: exact cancellation — for every value `v`, `add(v, negate(v))` is
bit-identical to the all-zero byte. -/
theorem add_neg_cancel_exact : ∀ v : F8, F8.add v (F8.neg v) = F8.zero := by decide

/-- C9: equality on `F8` is bit-pattern equality of the packed byte, and
negating zero gives a bit pattern distinct from positive zero even though
both denote the numeric value 0 (`value4` is 4 times the denoted value). -/
theorem eq_bitpattern_negative_zero :
    (∀ a b : F8, a = b ↔ Fin.val a = Fin.val b) ∧
    F8.neg F8.zero ≠ F8.zero ∧
    F8.value4 (F8.neg F8.zero) = 0 ∧ F8.value4 F8.zero = 0 :=
  ⟨fun _ _ => Fin.val_inj.symm, by decide, by decide, by decide⟩

/-- C10: `signum` returns 0 exactly when the significand field is 0
(regardless of the sign bit and exponent field — so negative zero and the
infinity sentinel both report 0), and on a nonzero significand field it
returns +1 when the sign bit is clear and -1 when it is set. -/
theorem signum_zero_iff_significand_zero :
    ∀ v : F8, (F8.signum v = 0 ↔ F8.significand v = 0) ∧
      (F8.significand v ≠ 0 →
        F8.signum v = if F8.is_sign_positive v then 1 else -1) := by decide

/-- C10 witness: at `v = F8(0x81)` (sign bit set, significand 1) the
hypothesis holds and `signum` is -1. -/
theorem signum_zero_iff_significand_zero_witness : F8.signum (byte 0x81) = -1 :=
  ((signum_zero_iff_significand_zero (byte 0x81)).2 (by decide)).trans (by decide)
